import Mathlib

/-!
Verification of the slarti remote-administration core against its
natural-language specification.

The development shallowly embeds the Rust sources:
  - crates/slarti-proto/src/lib.rs   (wire protocol data model)
  - crates/slarti-remote/src/main.rs (agent dispatcher)
  - crates/slarti-ssh/src/lib.rs     (presence prober, deployment)
Pure functions become Lean functions; effectful calls (filesystem reads,
process spawns) become explicit environment records supplying their
outcomes, so every definition is executable on concrete inputs.
-/

namespace Slarti

/-! Wire protocol data model, from crates/slarti-proto/src/lib.rs.
Rust u64 and usize fields are modelled as Nat. -/

/-- Capability enum from slarti-proto (rename_all snake_case). -/
inductive Capability where
  | SysInfo
  | StaticConfig
  | ServicesList
  | ContainersList
  | NetListeners
  | ProcessesSummary
deriving DecidableEq, Repr

/-- DirEntry struct from slarti-proto: one directory listing entry. -/
structure DirEntry where
  name : String
  path : String
  is_dir : Bool
  size : Option Nat
deriving DecidableEq, Repr

/-- SysInfo struct from slarti-proto. -/
structure SysInfo where
  os : String
  kernel : String
  arch : String
  uptime_secs : Nat
  hostname : String
deriving DecidableEq, Repr

/-- StaticConfig struct from slarti-proto. -/
structure StaticConfig where
  os_release : Option String
  cpu_count : Nat
  mem_total_bytes : Nat
deriving DecidableEq, Repr

/-- Command enum from crates/slarti-proto/src/lib.rs lines 3 to 18, exactly as
in the source: the four variants Hello, SysInfo, StaticConfig, ListDir.
Note the source file defines no ServicesList variant even though the
dispatcher in slarti-remote matches on one. -/
inductive Command where
  | Hello (id : Nat) (client_version : String)
  | SysInfo (id : Nat)
  | StaticConfig (id : Nat)
  | ListDir (id : Nat) (path : String) (max : Option Nat) (skip : Option Nat)
deriving DecidableEq, Repr

/-- Response enum from crates/slarti-proto/src/lib.rs, exactly as in the
source: HelloAck, SysInfoOk, StaticConfigOk, ListDirOk, Error. -/
inductive Response where
  | HelloAck (id : Nat) (agent_version : String) (capabilities : List Capability)
  | SysInfoOk (id : Nat) (info : SysInfo)
  | StaticConfigOk (id : Nat) (config : StaticConfig)
  | ListDirOk (id : Nat) (entries : List DirEntry) (eof : Bool)
  | Error (id : Nat) (message : String)
deriving DecidableEq, Repr

/-! JSON values and the serde-derived wire encoding of Command.
The Command enum is internally tagged with tag field "cmd" and
rename_all snake_case; Option fields serialize to null when None and may
be absent or null when deserializing. -/

/-- JSON value tree. Numeric fields of the protocol are unsigned
integers (u64 and usize), so numbers are modelled as Nat. -/
inductive Json where
  | null
  | bool (b : Bool)
  | num (n : Nat)
  | str (s : String)
  | arr (elems : List Json)
  | obj (fields : List (String × Json))

/-- Field lookup in a JSON object, first match wins. -/
def jLookup (fields : List (String × Json)) (k : String) : Option Json :=
  (fields.find? (fun p => p.1 == k)).map Prod.snd

/-- Encoding of an optional unsigned integer: serde writes null for None. -/
def encodeOptNat : Option Nat → Json
  | none => Json.null
  | some n => Json.num n

/-- Serde-derived serialization of Command (tag "cmd", snake_case). -/
def encodeCommand : Command → Json
  | .Hello id cv =>
      Json.obj [("cmd", Json.str "hello"), ("id", Json.num id),
                ("client_version", Json.str cv)]
  | .SysInfo id =>
      Json.obj [("cmd", Json.str "sys_info"), ("id", Json.num id)]
  | .StaticConfig id =>
      Json.obj [("cmd", Json.str "static_config"), ("id", Json.num id)]
  | .ListDir id path max skip =>
      Json.obj [("cmd", Json.str "list_dir"), ("id", Json.num id),
                ("path", Json.str path), ("max", encodeOptNat max),
                ("skip", encodeOptNat skip)]

/-- Decoding of an Option field: absent or null means None. -/
def decodeOptNatField (fields : List (String × Json)) (k : String) :
    Option (Option Nat) :=
  match jLookup fields k with
  | none => some none
  | some Json.null => some none
  | some (Json.num n) => some (some n)
  | some _ => none

/-- Serde-derived deserialization of Command: reads the "cmd" tag, then the
variant fields. Unknown tags fail, matching serde unknown-variant errors. -/
def decodeCommand : Json → Option Command
  | Json.obj fields =>
    match jLookup fields "cmd" with
    | some (Json.str tag) =>
      if tag = "hello" then
        match jLookup fields "id", jLookup fields "client_version" with
        | some (Json.num id), some (Json.str cv) => some (Command.Hello id cv)
        | _, _ => none
      else if tag = "sys_info" then
        match jLookup fields "id" with
        | some (Json.num id) => some (Command.SysInfo id)
        | _ => none
      else if tag = "static_config" then
        match jLookup fields "id" with
        | some (Json.num id) => some (Command.StaticConfig id)
        | _ => none
      else if tag = "list_dir" then
        match jLookup fields "id", jLookup fields "path" with
        | some (Json.num id), some (Json.str p) =>
          match decodeOptNatField fields "max", decodeOptNatField fields "skip" with
          | some mx, some sk => some (Command.ListDir id p mx sk)
          | _, _ => none
        | _, _ => none
      else none
    | _ => none
  | _ => none

/-! String primitives. The Rust sources use str trim, starts_with, strip
then drop, to_lowercase, contains, lexicographic cmp and lines. The core
Lean counterparts are defined by well-founded recursion and do not reduce
inside the kernel, so executable structural equivalents over the character
list of a String are defined here and used throughout the embedding. On
the ASCII data of this protocol they agree with the Rust operations. -/

/-- Leading-whitespace removal, then trailing via reverse. -/
def trimChars (cs : List Char) : List Char :=
  ((cs.dropWhile Char.isWhitespace).reverse.dropWhile Char.isWhitespace).reverse

/-- Model of Rust str trim. -/
def strTrim (s : String) : String :=
  String.mk (trimChars s.data)

/-- Prefix test on character lists. -/
def charsStartWith : List Char → List Char → Bool
  | _, [] => true
  | [], _ :: _ => false
  | c :: cs, p :: ps => (c == p) && charsStartWith cs ps

/-- Model of Rust str starts_with. -/
def strStartsWith (s pre : String) : Bool :=
  charsStartWith s.data pre.data

/-- Model of dropping the first n characters of a string. -/
def strDrop (s : String) (n : Nat) : String :=
  String.mk (s.data.drop n)

/-- Substring occurrence test on character lists. -/
def charsContain : List Char → List Char → Bool
  | s, pat =>
    match s with
    | [] => charsStartWith [] pat
    | _ :: rest => charsStartWith s pat || charsContain rest pat

/-- Model of Rust str contains for substring patterns. -/
def strContains (s pat : String) : Bool :=
  charsContain s.data pat.data

/-- Lexicographic comparison of character lists, as Rust String cmp. -/
def cmpChars : List Char → List Char → Ordering
  | [], [] => Ordering.eq
  | [], _ :: _ => Ordering.lt
  | _ :: _, [] => Ordering.gt
  | a :: as, b :: bs =>
      if a < b then Ordering.lt
      else if b < a then Ordering.gt
      else cmpChars as bs

/-- Model of Rust str to_lowercase on the ASCII range. -/
def strToLower (s : String) : String :=
  String.mk (s.data.map Char.toLower)

/-- Split at newline characters, as Rust str lines; a trailing empty
segment is irrelevant to the first-non-blank-line use below. -/
def splitLines : List Char → List (List Char)
  | [] => [[]]
  | c :: rest =>
    let r := splitLines rest
    if c == '\n' then [] :: r
    else
      match r with
      | h :: t => (c :: h) :: t
      | [] => [[c]]

/-! Agent dispatcher, from crates/slarti-remote/src/main.rs. Filesystem and
system probes are supplied by an explicit environment record. -/

/-- Raw directory entry as produced by fs read_dir plus metadata: the
dispatcher builds a DirEntry out of name, path, is_dir, and size when the
entry is a regular file. -/
structure RawEntry where
  name : String
  path : String
  is_dir : Bool
  is_file : Bool
  len : Nat
deriving DecidableEq, Repr

/-- Construction of a DirEntry in the read_dir loop of handle_command:
size is Some len only for regular files. -/
def toDirEntry (e : RawEntry) : DirEntry :=
  { name := e.name, path := e.path, is_dir := e.is_dir,
    size := if e.is_file then some e.len else none }

/-- Environment of the agent process: outcomes of its effectful calls.
read_dir is keyed by the (tilde-expanded) directory path. -/
structure AgentEnv where
  agent_version : String
  home : Option String
  sys_info : Except String SysInfo
  static_config : Except String StaticConfig
  read_dir : String → Except String (List RawEntry)

/-- Function expand_tilde of main.rs: a leading tilde-slash is replaced by
the home directory when one is known, otherwise the path is returned
unchanged. -/
def expand_tilde (home : Option String) (path : String) : String :=
  if strStartsWith path "~/" then
    match home with
    | some h => h ++ "/" ++ strDrop path 2
    | none => path
  else path

/-- Comparator used by entries.sort_by in the ListDir branch: directories
first, then case-insensitive name. -/
def cmpEntry (a b : DirEntry) : Ordering :=
  match a.is_dir, b.is_dir with
  | true, false => Ordering.lt
  | false, true => Ordering.gt
  | _, _ => cmpChars (strToLower a.name).data (strToLower b.name).data

/-- Boolean order corresponding to cmpEntry, as used by a stable sort:
a precedes b unless the comparator says greater. -/
def leEntry (a b : DirEntry) : Bool :=
  match cmpEntry a b with
  | Ordering.gt => false
  | _ => true

/-- Stable insertion of an entry in front of the first element it precedes
or ties with. -/
def insertEntry (a : DirEntry) : List DirEntry → List DirEntry
  | [] => [a]
  | b :: bs => if leEntry a b then a :: b :: bs else b :: insertEntry a bs

/-- Stable sort of directory entries. Rust sort_by is a stable sort by the
comparator; the stable sort by a total preorder is unique, and is realised
here by stable insertion sort, which is kernel-executable. -/
def sortEntries : List DirEntry → List DirEntry
  | [] => []
  | a :: as => insertEntry a (sortEntries as)

/-- Effective max for ListDir: max.unwrap_or(2000).min(10000) in main.rs. -/
def effectiveMax (max : Option Nat) : Nat :=
  min (max.getD 2000) 10000

/-- Effective skip for ListDir: skip.unwrap_or(0) in main.rs. -/
def effectiveSkip (skip : Option Nat) : Nat :=
  skip.getD 0

/-- Fixed capability list advertised by the agent in HelloAck. -/
def agentCapabilities : List Capability :=
  [Capability.SysInfo, Capability.StaticConfig, Capability.ServicesList,
   Capability.ContainersList, Capability.NetListeners,
   Capability.ProcessesSummary]

/-- Function handle_command of main.rs over the four Command variants that
slarti-proto defines. The source also contains a ServicesList match arm,
but it refers to a Command variant and a ServiceInfo type that the proto
crate does not define. Per-variant effects come from the environment; the
ListDir branch expands the tilde, reads the directory, sorts
directories-first then case-insensitive, computes eof as
skip + max greater-or-equal total, and slices with skip and take. -/
def handle_command (env : AgentEnv) : Command → Except String Response
  | Command.Hello id _ =>
      Except.ok (Response.HelloAck id env.agent_version agentCapabilities)
  | Command.SysInfo id =>
      match env.sys_info with
      | Except.ok info => Except.ok (Response.SysInfoOk id info)
      | Except.error e => Except.error e
  | Command.StaticConfig id =>
      match env.static_config with
      | Except.ok config => Except.ok (Response.StaticConfigOk id config)
      | Except.error e => Except.error e
  | Command.ListDir id path max skip =>
      let maxE := effectiveMax max
      let skipE := effectiveSkip skip
      let dir := expand_tilde env.home path
      match env.read_dir dir with
      | Except.error e => Except.error ("read_dir(\"" ++ dir ++ "\"): " ++ e)
      | Except.ok raw =>
          let entries := sortEntries (raw.map toDirEntry)
          let eof := decide (entries.length ≤ skipE + maxE)
          Except.ok (Response.ListDirOk id ((entries.drop skipE).take maxE) eof)

/-- One iteration of the stdin loop in main: a line whose trim is empty is
skipped with no output; otherwise the line is parsed (the parser stands for
serde_json from_str) and dispatched, and a failure of either step becomes
an Error Response with id 0. -/
def runLine (env : AgentEnv) (parse : String → Except String Command)
    (line : String) : Option Response :=
  if strTrim line = "" then none
  else
    let resp : Except String Response :=
      match parse line with
      | Except.ok cmd => handle_command env cmd
      | Except.error e => Except.error ("invalid json: " ++ e)
    match resp with
    | Except.ok r => some r
    | Except.error e => some (Response.Error 0 e)

/-- The stdin loop of main over a list of input lines: each line yields
zero or one Response and the loop always proceeds to the next line. -/
def runLines (env : AgentEnv) (parse : String → Except String Command) :
    List String → List Response
  | [] => []
  | line :: rest => (runLine env parse line).toList ++ runLines env parse rest

/-- Caller-driven pagination over ListDir: repeatedly issue ListDir with a
fixed max and a skip advanced by the prior returned count, collecting the
page and its eof flag, stopping at the first eof. Fuel bounds the number of
iterations; total entry count as fuel suffices for positive max. -/
def listDirPages (env : AgentEnv) (path : String) (K : Nat) :
    Nat → Nat → List (List DirEntry × Bool)
  | _, 0 => []
  | skip, fuel+1 =>
    match handle_command env (Command.ListDir 0 path (some K) (some skip)) with
    | Except.ok (Response.ListDirOk _ entries eof) =>
        if eof then [(entries, true)]
        else (entries, false) ::
          listDirPages env path K (skip + entries.length) fuel
    | _ => []

/-! Presence prober, from check_agent in crates/slarti-ssh/src/lib.rs. The
spawned ssh probe is abstracted to its observable outcome: exit code (None
when killed by a signal) and captured stdout and stderr. Exit status
success means exit code zero. -/

/-- Observable outcome of the one-shot version probe. -/
structure ProbeOutput where
  code : Option Int
  stdout : String
  stderr : String
deriving DecidableEq, Repr

/-- AgentStatus struct from slarti-ssh. -/
structure AgentStatus where
  present : Bool
  version : Option String
  remote_path : String
  can_run : Bool
  stdout : String
  stderr : String
deriving DecidableEq, Repr

/-- Signature test from check_agent: exit code 126 or 127, or one of the
curated stderr substrings for missing or not-executable binaries. -/
def looks_missing_or_not_exec (code : Option Int) (stderr : String) : Bool :=
  (code == some 126) || (code == some 127) ||
  strContains stderr "No such file or directory" ||
  strContains stderr "not found" ||
  strContains stderr "Permission denied" ||
  strContains stderr "Exec format error" ||
  strContains stderr "cannot execute"

/-- First non-empty trimmed line of the probe stdout, the parsed version. -/
def first_non_blank_line (s : String) : Option String :=
  (((splitLines s.data).map trimChars).find? (fun l => !l.isEmpty)).map String.mk

/-- Classification performed by check_agent after running the probe: a
non-zero exit that looks missing-or-not-executable is a non-fatal
AgentStatus with present and can_run false; any other non-zero exit is a
hard error; a zero exit parses the version from stdout and reports
can_run true with present tied to a version line existing. -/
def check_agent (remote_path : String) (out : ProbeOutput) :
    Except String AgentStatus :=
  if out.code ≠ some 0 then
    if looks_missing_or_not_exec out.code out.stderr then
      Except.ok { present := false, version := none,
                  remote_path := remote_path, can_run := false,
                  stdout := out.stdout, stderr := out.stderr }
    else
      Except.error ("ssh check failed: stderr=" ++ strTrim out.stderr ++
                    ", stdout=" ++ strTrim out.stdout)
  else
    let version := first_non_blank_line out.stdout
    Except.ok { present := version.isSome, version := version,
                remote_path := remote_path, can_run := true,
                stdout := out.stdout, stderr := out.stderr }

/-! Deployment orchestrator, from deploy_agent in
crates/slarti-ssh/src/lib.rs. Each remote step is abstracted to its
outcome: the root probe, mkdir, the rsync and scp uploads, and chmod. -/

/-- Outcomes of the effectful deployment steps. A false step Bool covers
both a failing and a timed-out step. -/
structure DeployEnv where
  is_root_probe : Except String Bool
  mkdir_ok : Bool
  rsync_ok : Bool
  scp_ok : Bool
  chmod_ok : Bool

/-- DeployResult struct from slarti-ssh. -/
structure DeployResult where
  remote_path : String
  used_rsync : Bool
deriving DecidableEq, Repr

/-- Function deploy_agent: pick the base directory by the root probe
(errors default to non-root via unwrap_or false), require mkdir, try rsync
then fall back to scp, chmod only on the scp path, and return the final
path and which transfer was used. -/
def deploy_agent (env : DeployEnv) (version : String) :
    Except String DeployResult :=
  let is_root := match env.is_root_probe with
    | Except.ok b => b
    | Except.error _ => false
  let remote_dir := if is_root then "/usr/local/lib/slarti/agent/" ++ version
                    else "$HOME/.local/share/slarti/agent/" ++ version
  let remote_path := remote_dir ++ "/slarti-remote"
  if !env.mkdir_ok then Except.error "remote mkdir failed"
  else
    let used_rsync := env.rsync_ok
    let uploaded := env.rsync_ok || env.scp_ok
    if !uploaded then Except.error "failed to upload agent (rsync/scp)"
    else if !used_rsync && !env.chmod_ok then Except.error "remote chmod failed"
    else Except.ok { remote_path := remote_path, used_rsync := used_rsync }

/-! Concrete environments used by witnesses and counterexamples. -/

/-- Environment whose directory reads always fail. -/
def envFail : AgentEnv :=
  { agent_version := "0.1.0", home := none,
    sys_info := Except.error "na", static_config := Except.error "na",
    read_dir := fun _ => Except.error "denied" }

/-- Directory with two files and one directory, unsorted on disk. -/
def raw3 : List RawEntry :=
  [ { name := "c", path := "/d/c", is_dir := false, is_file := true, len := 2 },
    { name := "B", path := "/d/B", is_dir := true, is_file := false, len := 0 },
    { name := "a", path := "/d/a", is_dir := false, is_file := true, len := 1 } ]

/-- Environment serving the three-entry directory raw3. -/
def env3 : AgentEnv :=
  { agent_version := "0.1.0", home := some "/home/u",
    sys_info := Except.error "na", static_config := Except.error "na",
    read_dir := fun _ => Except.ok raw3 }

/-! Claim theorems. -/

/-- C6: for every value of every Command variant, serializing to the JSON
wire form and deserializing yields the original value. -/
theorem command_roundtrip (c : Command) :
    decodeCommand (encodeCommand c) = some c := by
  cases c with
  | Hello id cv => rfl
  | SysInfo id => rfl
  | StaticConfig id => rfl
  | ListDir id p mx sk => cases mx <;> cases sk <;> rfl

/-- C2: a services_list command does not parse into a Command value,
because the Command enum of slarti-proto has no ServicesList variant, even
though the dispatcher and the spec expect one. -/
theorem services_list_not_parseable :
    decodeCommand (Json.obj [("cmd", Json.str "services_list"),
      ("id", Json.num 3)]) = none := rfl

/-- C1: a recognized ListDir command with id 7 whose directory cannot be
opened makes the dispatcher emit an Error Response with id 0, not with the
request id 7: handle_command propagates the read_dir failure as a bare
error and the main loop stamps every such error with id 0. -/
theorem listdir_open_failure_error_id_zero :
    runLine envFail (fun _ => Except.ok (Command.ListDir 7 "/nope" none none))
        "x" = some (Response.Error 0 "read_dir(\"/nope\"): denied")
    ∧ Response.Error 0 "read_dir(\"/nope\"): denied"
        ≠ Response.Error 7 "read_dir(\"/nope\"): denied" :=
  ⟨rfl, by decide⟩

/-- C3: a non-blank line that does not parse as a Command produces exactly
one Error Response with id 0 and the loop continues with the remaining
lines. -/
theorem malformed_line_single_error_id_zero
    (env : AgentEnv) (parse : String → Except String Command)
    (line : String) (rest : List String) (e : String)
    (hne : strTrim line ≠ "") (hp : parse line = Except.error e) :
    runLines env parse (line :: rest) =
      Response.Error 0 ("invalid json: " ++ e) :: runLines env parse rest := by
  simp [runLines, runLine, hne, hp]

/-- Witness for C3 at a concrete malformed line. -/
theorem malformed_line_single_error_id_zero_witness :
    strTrim "oops" ≠ "" ∧
    runLines envFail (fun _ => Except.error "bad") ["oops", "next"] =
      Response.Error 0 ("invalid json: " ++ "bad") ::
        runLines envFail (fun _ => Except.error "bad") ["next"] :=
  ⟨by decide,
   malformed_line_single_error_id_zero envFail (fun _ => Except.error "bad")
     "oops" ["next"] "bad" (by decide) rfl⟩

/-- C10: a line consisting only of whitespace produces no Response at all
and the loop proceeds with the remaining lines. -/
theorem blank_line_skipped (env : AgentEnv)
    (parse : String → Except String Command) (line : String)
    (rest : List String) (h : strTrim line = "") :
    runLine env parse line = none ∧
    runLines env parse (line :: rest) = runLines env parse rest := by
  refine ⟨?_, ?_⟩
  · simp [runLine, h]
  · simp [runLines, runLine, h]

/-- Witness for C10 at a concrete whitespace-only line. -/
theorem blank_line_skipped_witness :
    strTrim " \t " = "" ∧
    runLine env3 (fun _ => Except.error "bad") " \t " = none ∧
    runLines env3 (fun _ => Except.error "bad") [" \t ", "next"] =
      runLines env3 (fun _ => Except.error "bad") ["next"] :=
  ⟨by decide,
   (blank_line_skipped env3 (fun _ => Except.error "bad") " \t " ["next"]
     (by decide)).1,
   (blank_line_skipped env3 (fun _ => Except.error "bad") " \t " ["next"]
     (by decide)).2⟩

/-- Shared unfolding lemma: a ListDir command over a readable directory
answers with the sorted entries sliced by the effective skip and max, and
the eof flag computed by the dispatcher. -/
theorem handle_listdir_ok (env : AgentEnv) (id : Nat) (path : String)
    (max skip : Option Nat) (raw : List RawEntry)
    (h : env.read_dir (expand_tilde env.home path) = Except.ok raw) :
    handle_command env (Command.ListDir id path max skip) =
      Except.ok (Response.ListDirOk id
        (((sortEntries (raw.map toDirEntry)).drop (effectiveSkip skip)).take
          (effectiveMax max))
        (decide ((sortEntries (raw.map toDirEntry)).length ≤
          effectiveSkip skip + effectiveMax max))) := by
  simp [handle_command, h]

/-- C4: for every ListDir request over a readable directory, the eof flag
of the ListDirOk response equals skip + returned_count greater-or-equal
total_count, where returned_count is the number of entries actually
returned. -/
theorem listdir_eof_formula (env : AgentEnv) (id : Nat) (path : String)
    (max skip : Option Nat) (raw : List RawEntry)
    (h : env.read_dir (expand_tilde env.home path) = Except.ok raw) :
    ∃ entries eof,
      handle_command env (Command.ListDir id path max skip) =
        Except.ok (Response.ListDirOk id entries eof) ∧
      eof = decide ((sortEntries (raw.map toDirEntry)).length ≤
                    effectiveSkip skip + entries.length) := by
  refine ⟨_, _, handle_listdir_ok env id path max skip raw h, ?_⟩
  rw [decide_eq_decide, List.length_take, List.length_drop]
  omega

/-- Witness for C4 at the concrete three-entry directory. -/
theorem listdir_eof_formula_witness :
    ∃ entries eof,
      handle_command env3 (Command.ListDir 7 "/d" (some 2) none) =
        Except.ok (Response.ListDirOk 7 entries eof) ∧
      eof = decide ((sortEntries (raw3.map toDirEntry)).length ≤
                    effectiveSkip none + entries.length) :=
  listdir_eof_formula env3 7 "/d" (some 2) none raw3 rfl

/-- C9: an absent max defaults to 2000, a supplied max is clamped to at
most 10000, an absent skip defaults to 0, and the dispatcher treats an
absent max and skip exactly as the defaults. -/
theorem listdir_max_skip_defaults :
    effectiveMax none = 2000
    ∧ (∀ m, effectiveMax (some m) = min m 10000)
    ∧ (∀ m, effectiveMax (some m) ≤ 10000)
    ∧ effectiveSkip none = 0
    ∧ (∀ env id path skip,
        handle_command env (Command.ListDir id path none skip) =
        handle_command env (Command.ListDir id path (some 2000) skip))
    ∧ (∀ env id path max,
        handle_command env (Command.ListDir id path max none) =
        handle_command env (Command.ListDir id path max (some 0))) :=
  ⟨rfl, fun _ => rfl, fun _ => min_le_right _ _, rfl,
   fun _ _ _ _ => rfl, fun _ _ _ _ => rfl⟩

/-- C7: the prober classification. A zero exit with a version line yields
present and can_run true with that version; a non-zero exit matching the
missing-or-not-executable signatures yields a non-error AgentStatus with
present and can_run false; any other non-zero exit is a hard error. -/
theorem check_agent_classification (rp : String) (out : ProbeOutput) :
    (out.code = some 0 → ∀ v, first_non_blank_line out.stdout = some v →
      check_agent rp out = Except.ok
        { present := true, version := some v, remote_path := rp,
          can_run := true, stdout := out.stdout, stderr := out.stderr })
    ∧ (out.code ≠ some 0 →
       looks_missing_or_not_exec out.code out.stderr = true →
      check_agent rp out = Except.ok
        { present := false, version := none, remote_path := rp,
          can_run := false, stdout := out.stdout, stderr := out.stderr })
    ∧ (out.code ≠ some 0 →
       looks_missing_or_not_exec out.code out.stderr = false →
      ∃ e, check_agent rp out = Except.error e) := by
  refine ⟨?_, ?_, ?_⟩
  · intro h0 v hv
    simp [check_agent, h0, hv]
  · intro hne hl
    simp [check_agent, hne, hl]
  · intro hne hl
    refine ⟨"ssh check failed: stderr=" ++ strTrim out.stderr ++
      ", stdout=" ++ strTrim out.stdout, ?_⟩
    unfold check_agent
    rw [if_pos hne, if_neg (by simp [hl])]

/-- Witness for C7 at three concrete probe outcomes. -/
theorem check_agent_classification_witness :
    check_agent "/p" { code := some 0, stdout := " 1.2.3 \nx", stderr := "" } =
      Except.ok { present := true, version := some "1.2.3",
                  remote_path := "/p", can_run := true,
                  stdout := " 1.2.3 \nx", stderr := "" }
    ∧ check_agent "/p" { code := some 127, stdout := "", stderr := "nf" } =
      Except.ok { present := false, version := none, remote_path := "/p",
                  can_run := false, stdout := "", stderr := "nf" }
    ∧ ∃ e, check_agent "/p"
        { code := some 255, stdout := "", stderr := "auth failed" } =
          Except.error e :=
  ⟨(check_agent_classification "/p" _).1 rfl "1.2.3" rfl,
   (check_agent_classification "/p" _).2.1 (by decide) (by decide),
   (check_agent_classification "/p" _).2.2 (by decide) (by decide)⟩

/-- Helper: the deployment directory literals recompose into the base,
agent, version, binary-name shape. -/
theorem remote_dir_shape (c : Bool) (version : String) :
    (if c = true then "/usr/local/lib/slarti/agent/" ++ version
     else "$HOME/.local/share/slarti/agent/" ++ version) ++ "/slarti-remote" =
    (if c = true then "/usr/local/lib/slarti"
     else "$HOME/.local/share/slarti")
      ++ "/agent/" ++ version ++ "/slarti-remote" := by
  cases c <;> rfl

/-- C8: every successful deployment returns remote_path equal to
base slash agent slash version slash slarti-remote, with base chosen by
the root probe: the system path for root, the home-relative path
otherwise. -/
theorem deploy_remote_path_shape (env : DeployEnv) (version : String)
    (r : DeployResult) (h : deploy_agent env version = Except.ok r) :
    r.remote_path =
      (if (match env.is_root_probe with
           | Except.ok b => b
           | Except.error _ => false) = true
       then "/usr/local/lib/slarti"
       else "$HOME/.local/share/slarti")
      ++ "/agent/" ++ version ++ "/slarti-remote" := by
  obtain ⟨p, mk, rs, sc, ch⟩ := env
  unfold deploy_agent at h
  cases mk <;> cases rs <;> cases sc <;> cases ch <;> simp_all <;>
    (try cases h) <;> (try exact remote_dir_shape _ version)

/-- Witness for C8 at a concrete all-steps-succeed deployment. -/
theorem deploy_remote_path_shape_witness :
    deploy_agent { is_root_probe := Except.ok true, mkdir_ok := true,
                   rsync_ok := true, scp_ok := false, chmod_ok := false }
        "1.2.3" =
      Except.ok { remote_path := "/usr/local/lib/slarti/agent/1.2.3/slarti-remote",
                  used_rsync := true }
    ∧ ({ remote_path := "/usr/local/lib/slarti/agent/1.2.3/slarti-remote",
         used_rsync := true } : DeployResult).remote_path =
      (if (match (Except.ok true : Except String Bool) with
           | Except.ok b => b
           | Except.error _ => false) = true
       then "/usr/local/lib/slarti"
       else "$HOME/.local/share/slarti")
      ++ "/agent/" ++ "1.2.3" ++ "/slarti-remote" :=
  ⟨rfl,
   deploy_remote_path_shape
     { is_root_probe := Except.ok true, mkdir_ok := true, rsync_ok := true,
       scp_ok := false, chmod_ok := false } "1.2.3" _ rfl⟩

/-- Helper: one pagination step unfolds the fuel by one when the ListDirOk
response for the current skip is known. -/
theorem listDirPages_step (env : AgentEnv) (path : String)
    (K skip fuel : Nat) (entries : List DirEntry) (eof : Bool)
    (hfuel : 0 < fuel)
    (h : handle_command env (Command.ListDir 0 path (some K) (some skip)) =
         Except.ok (Response.ListDirOk 0 entries eof)) :
    listDirPages env path K skip fuel =
      if eof then [(entries, true)]
      else (entries, false) ::
        listDirPages env path K (skip + entries.length) (fuel - 1) := by
  cases fuel with
  | zero => omega
  | succ n =>
    simp only [listDirPages, h]
    simp

/-- Helper: pagination invariant. With a readable directory, a page size K
between 1 and 10000, a start below the total and enough fuel, the
concatenated pages equal the sorted entries from the start on, and the eof
flags are false throughout except for a final true. -/
theorem listDirPages_spec (env : AgentEnv) (path : String)
    (raw : List RawEntry)
    (h : env.read_dir (expand_tilde env.home path) = Except.ok raw)
    (K : Nat) (hK1 : 1 ≤ K) (hK10 : K ≤ 10000) :
    ∀ fuel skip,
      skip < (sortEntries (raw.map toDirEntry)).length →
      (sortEntries (raw.map toDirEntry)).length ≤ skip + fuel →
      ((listDirPages env path K skip fuel).map Prod.fst).flatten =
        (sortEntries (raw.map toDirEntry)).drop skip ∧
      (listDirPages env path K skip fuel).map Prod.snd =
        List.replicate ((listDirPages env path K skip fuel).length - 1) false
          ++ [true] := by
  intro fuel
  induction fuel with
  | zero => intro skip h1 h2; omega
  | succ n ih =>
    intro skip h1 h2
    have hme : effectiveMax (some K) = K := by
      simp only [effectiveMax, Option.getD_some]
      exact Nat.min_eq_left hK10
    have hstep := handle_listdir_ok env 0 path (some K) (some skip) raw h
    rw [hme] at hstep
    have hse : effectiveSkip (some skip) = skip := rfl
    rw [hse] at hstep
    by_cases heof : (sortEntries (raw.map toDirEntry)).length ≤ skip + K
    · have hd : decide ((sortEntries (raw.map toDirEntry)).length ≤ skip + K)
          = true := decide_eq_true heof
      rw [hd] at hstep
      rw [listDirPages_step env path K skip (n+1) _ _ (Nat.succ_pos n) hstep]
      simp only [if_true]
      constructor
      · simp only [List.map_cons, List.map_nil, List.flatten_cons,
          List.flatten_nil, List.append_nil]
        refine List.take_of_length_le ?_
        rw [List.length_drop]
        omega
      · simp
    · have hd : decide ((sortEntries (raw.map toDirEntry)).length ≤ skip + K)
          = false := decide_eq_false heof
      rw [hd] at hstep
      rw [listDirPages_step env path K skip (n+1) _ _ (Nat.succ_pos n) hstep]
      simp only [Bool.false_eq_true, if_false, Nat.add_sub_cancel]
      have hlen : (((sortEntries (raw.map toDirEntry)).drop skip).take K).length
          = K := by
        rw [List.length_take, List.length_drop]
        omega
      rw [hlen]
      have hrec := ih (skip + K) (by omega) (by omega)
      have hne : listDirPages env path K (skip + K) n ≠ [] := by
        intro h0
        rw [h0] at hrec
        simp at hrec
      constructor
      · simp only [List.map_cons, List.flatten_cons]
        rw [hrec.1]
        rw [← List.drop_drop]
        exact List.take_append_drop K _
      · simp only [List.map_cons, List.length_cons]
        rw [hrec.2]
        rcases hl0 : (listDirPages env path K (skip + K) n).length with _ | m
        · exact absurd (List.length_eq_zero.mp hl0) hne
        · rw [hl0] at hrec
          simp only [Nat.add_sub_cancel, Nat.succ_sub_one]
          rw [List.replicate_succ]
          simp

/-- C5 (amended): over a readable directory whose sorted listing has M
entries with M at most 10000, and a page size K with 1 at most K and K
below M, repeatedly issuing ListDir with max K and skip advanced by the
prior returned count yields eof false on every page except the last and
eof true on the last, and the concatenation of the pages in order equals
the entries of a single ListDir call with max M. -/
theorem listdir_pagination (env : AgentEnv) (path : String)
    (raw : List RawEntry) (K : Nat)
    (h : env.read_dir (expand_tilde env.home path) = Except.ok raw)
    (hK1 : 1 ≤ K)
    (hKM : K < (sortEntries (raw.map toDirEntry)).length)
    (hM : (sortEntries (raw.map toDirEntry)).length ≤ 10000) :
    (listDirPages env path K 0
        (sortEntries (raw.map toDirEntry)).length).map Prod.snd =
      List.replicate
        ((listDirPages env path K 0
          (sortEntries (raw.map toDirEntry)).length).length - 1) false
        ++ [true]
    ∧ handle_command env (Command.ListDir 0 path
        (some (sortEntries (raw.map toDirEntry)).length) none) =
      Except.ok (Response.ListDirOk 0
        (((listDirPages env path K 0
            (sortEntries (raw.map toDirEntry)).length).map Prod.fst).flatten)
        true) := by
  have hspec := listDirPages_spec env path raw h K hK1 (by omega)
    ((sortEntries (raw.map toDirEntry)).length) 0 (by omega) (by omega)
  refine ⟨hspec.2, ?_⟩
  rw [handle_listdir_ok env 0 path
    (some (sortEntries (raw.map toDirEntry)).length) none raw h]
  rw [hspec.1, List.drop_zero]
  have hmax : effectiveMax (some (sortEntries (raw.map toDirEntry)).length) =
      (sortEntries (raw.map toDirEntry)).length := by
    simp only [effectiveMax, Option.getD_some]
    exact Nat.min_eq_left hM
  have hskip : effectiveSkip (none : Option Nat) = 0 := rfl
  rw [hmax, hskip, List.drop_zero]
  rw [List.take_of_length_le (le_refl _)]
  have : decide ((sortEntries (raw.map toDirEntry)).length ≤
      0 + (sortEntries (raw.map toDirEntry)).length) = true :=
    decide_eq_true (by omega)
  rw [this]

/-- Witness for C5 at the concrete three-entry directory with page size 1. -/
theorem listdir_pagination_witness :
    (1 < (sortEntries (raw3.map toDirEntry)).length ∧
     (sortEntries (raw3.map toDirEntry)).length ≤ 10000) ∧
    ((listDirPages env3 "/d" 1 0
        (sortEntries (raw3.map toDirEntry)).length).map Prod.snd =
      List.replicate
        ((listDirPages env3 "/d" 1 0
          (sortEntries (raw3.map toDirEntry)).length).length - 1) false
        ++ [true]
    ∧ handle_command env3 (Command.ListDir 0 "/d"
        (some (sortEntries (raw3.map toDirEntry)).length) none) =
      Except.ok (Response.ListDirOk 0
        (((listDirPages env3 "/d" 1 0
            (sortEntries (raw3.map toDirEntry)).length).map Prod.fst).flatten)
        true)) :=
  ⟨⟨by decide, by decide⟩,
   listdir_pagination env3 "/d" raw3 1 rfl (le_refl 1) (by decide) (by decide)⟩

/-- Helper: inserting an entry that ties with itself in front of copies of
itself keeps the list unchanged apart from the new head. -/
theorem insertEntry_replicate_self (e : DirEntry) (he : leEntry e e = true)
    (n : Nat) :
    insertEntry e (List.replicate n e) = e :: List.replicate n e := by
  cases n with
  | zero => rfl
  | succ m =>
    rw [List.replicate_succ]
    simp [insertEntry, he]

/-- Helper: sorting copies of a single entry is the identity. -/
theorem sortEntries_replicate_self (e : DirEntry) (he : leEntry e e = true) :
    ∀ n, sortEntries (List.replicate n e) = List.replicate n e := by
  intro n
  induction n with
  | zero => rfl
  | succ m ih =>
    rw [List.replicate_succ]
    simp only [sortEntries]
    rw [ih, insertEntry_replicate_self e he]

/-- Single repeated file entry for the oversized directory. -/
def bigRaw : RawEntry :=
  { name := "a", path := "/big/a", is_dir := false, is_file := true, len := 0 }

/-- Its DirEntry image. -/
def bigEntry : DirEntry := toDirEntry bigRaw

/-- Environment serving a directory holding 10001 identical file entries. -/
def envBig : AgentEnv :=
  { agent_version := "0.1.0", home := none,
    sys_info := Except.error "na", static_config := Except.error "na",
    read_dir := fun _ => Except.ok (List.replicate 10001 bigRaw) }

/-- C5 counterexample to the claim as stated: for a directory with
M = 10001 entries and page size K = 10000 (so M above K), the
skip-advanced pages concatenate to all 10001 entries, while the single
ListDir call with max = M is clamped to 10000 entries (and reports eof
false), so the concatenation differs from the single call. -/
theorem listdir_pagination_clamp_cx :
    handle_command envBig (Command.ListDir 0 "/big" (some 10001) none) =
      Except.ok (Response.ListDirOk 0 (List.replicate 10000 bigEntry) false)
    ∧ ((listDirPages envBig "/big" 10000 0 10001).map Prod.fst).flatten =
      List.replicate 10001 bigEntry
    ∧ List.replicate 10001 bigEntry ≠ List.replicate 10000 bigEntry := by
  have hread : envBig.read_dir (expand_tilde envBig.home "/big") =
      Except.ok (List.replicate 10001 bigRaw) := rfl
  have hsort : sortEntries ((List.replicate 10001 bigRaw).map toDirEntry) =
      List.replicate 10001 bigEntry := by
    rw [List.map_replicate]
    exact sortEntries_replicate_self bigEntry (by decide) 10001
  have h1 : handle_command envBig (Command.ListDir 0 "/big" (some 10001) none)
      = Except.ok (Response.ListDirOk 0 (List.replicate 10000 bigEntry)
          false) := by
    rw [handle_listdir_ok envBig 0 "/big" (some 10001) none _ hread, hsort]
    have hmax : effectiveMax (some 10001) = 10000 := by decide
    have hskip : effectiveSkip (none : Option Nat) = 0 := rfl
    rw [hmax, hskip, List.drop_zero, List.take_replicate,
      List.length_replicate]
    have hm : (10000 : Nat) ⊓ 10001 = 10000 := by omega
    have hd : decide ((10001 : Nat) ≤ 0 + 10000) = false :=
      decide_eq_false (by omega)
    rw [hm, hd]
  have h1p : handle_command envBig
      (Command.ListDir 0 "/big" (some 10000) (some 0))
      = Except.ok (Response.ListDirOk 0 (List.replicate 10000 bigEntry)
          false) := by
    rw [handle_listdir_ok envBig 0 "/big" (some 10000) (some 0) _ hread,
      hsort]
    have hmax : effectiveMax (some 10000) = 10000 := by decide
    have hskip : effectiveSkip (some 0) = 0 := rfl
    rw [hmax, hskip, List.drop_zero, List.take_replicate,
      List.length_replicate]
    have hm : (10000 : Nat) ⊓ 10001 = 10000 := by omega
    have hd : decide ((10001 : Nat) ≤ 0 + 10000) = false :=
      decide_eq_false (by omega)
    rw [hm, hd]
  have h2p : handle_command envBig
      (Command.ListDir 0 "/big" (some 10000) (some 10000))
      = Except.ok (Response.ListDirOk 0 (List.replicate 1 bigEntry)
          true) := by
    rw [handle_listdir_ok envBig 0 "/big" (some 10000) (some 10000) _ hread,
      hsort]
    have hmax : effectiveMax (some 10000) = 10000 := by decide
    have hskip : effectiveSkip (some 10000) = 10000 := rfl
    rw [hmax, hskip, List.drop_replicate, List.take_replicate,
      List.length_replicate]
    have hm1 : (10001 : Nat) - 10000 = 1 := by omega
    rw [hm1]
    have hm : (10000 : Nat) ⊓ 1 = 1 := by omega
    have hd : decide ((10001 : Nat) ≤ 10000 + 10000) = true :=
      decide_eq_true (by omega)
    rw [hm, hd]
  have hpages : listDirPages envBig "/big" 10000 0 10001 =
      [(List.replicate 10000 bigEntry, false),
       (List.replicate 1 bigEntry, true)] := by
    rw [listDirPages_step envBig "/big" 10000 0 10001 _ _ (by omega) h1p]
    simp only [Bool.false_eq_true, if_false, List.length_replicate,
      Nat.zero_add]
    have hf : (10001 : Nat) - 1 = 10000 := by omega
    rw [hf]
    rw [listDirPages_step envBig "/big" 10000 10000 10000 _ _ (by omega) h2p]
    rw [if_pos rfl]
  refine ⟨h1, ?_, ?_⟩
  · rw [hpages]
    simp only [List.map_cons, List.map_nil, List.flatten_cons,
      List.flatten_nil, List.append_nil]
    rw [← List.replicate_add]
  · intro heq
    have := congrArg List.length heq
    simp only [List.length_replicate] at this
    omega

end Slarti
